import Mathlib

/-!
Verification of the Ahmet872/Alarm-System repository against its
natural-language specification.

The development shallowly embeds the parts of the source the claims are
about:

* `src/migrations/002_add_cleanup_procedure.sql` — the stored procedure
  `sp_cleanup_old_alarms` (a cursor loop deleting stale terminal-state
  alarm rows inside a transaction) and the daily event
  `ev_cleanup_old_alarms` invoking it with `days_old = 30`.
* the alarm-form submit handler `onSubmit` and the `asset_symbol`
  validation pattern (frontend form component);
* `getCachedAssets` and its module-level cache (frontend API library);
* the Indicator Engine's `RSI`, modelled from the spec because the
  backend worker is not part of the repository snapshot.

Tables are embedded as lists of rows, SQL `NOW()` as an explicit integer
timestamp parameter (seconds), JavaScript numbers as rationals with
`Option` capturing `NaN`, and network effects as explicit parameters.
-/

/-! ## Data model: alarm rows and the alarms table -/

/-- The `status` column of the `alarms` table
(spec §3: enum pending / triggered / failed / deleted). -/
inductive Status where
  | pending
  | triggered
  | failed
  | deleted
deriving DecidableEq, Repr

/-- One row of the `alarms` table, restricted to the columns the cleanup
procedure reads: the primary key `id`, `status` and `created_at`
(seconds since epoch; MySQL `DATETIME` made explicit). -/
structure AlarmRow where
  id : Nat
  status : Status
  created_at : Int
deriving DecidableEq, Repr

/-- Number of seconds in one day, for `INTERVAL days_old DAY`. -/
def secondsPerDay : Int := 86400

/-- The cursor's `WHERE` clause in `sp_cleanup_old_alarms`:
`status IN ('triggered','failed') AND created_at < DATE_SUB(NOW(), INTERVAL days_old DAY)`.
`now` stands for `NOW()`. -/
def eligibleRow (now days_old : Int) (r : AlarmRow) : Bool :=
  (r.status == Status.triggered || r.status == Status.failed)
    && decide (r.created_at < now - days_old * secondsPerDay)

/-- The id list the cursor `cur` enumerates: the `SELECT id FROM alarms
WHERE ...` result, materialised at `OPEN cur` from the current table. -/
def eligibleIds (now days_old : Int) (t : List AlarmRow) : List Nat :=
  (t.filter (eligibleRow now days_old)).map (fun r => r.id)

/-- One loop iteration's `DELETE FROM alarms WHERE id = v_alarm_id`. -/
def deleteById (t : List AlarmRow) (i : Nat) : List AlarmRow :=
  t.filter (fun r => r.id != i)

/-- The body of `sp_cleanup_old_alarms(days_old)`: open the cursor over
the eligible ids, then delete the fetched id row-by-row until the
`NOT FOUND` handler fires. The table-state result of one completed
(committed) invocation. -/
def sp_cleanup_old_alarms (now days_old : Int) (t : List AlarmRow) : List AlarmRow :=
  (eligibleIds now days_old t).foldl deleteById t

/-- The daily event `ev_cleanup_old_alarms`, which runs
`CALL sp_cleanup_old_alarms(30)`. -/
def ev_cleanup_old_alarms (now : Int) (t : List AlarmRow) : List AlarmRow :=
  sp_cleanup_old_alarms now 30 t

/-- The Stale-Record Sweeper as the spec re-expresses it (§9): the single
set-based conditional delete
`DELETE FROM alarms WHERE status IN ('triggered','failed') AND created_at < now - retention`. -/
def sweeperSetDelete (now days_old : Int) (t : List AlarmRow) : List AlarmRow :=
  t.filter (fun r => !eligibleRow now days_old r)

/-! ### Lemmas about the cursor loop -/

/-- Folding row-wise deletion over a list of ids removes exactly the rows
whose id occurs in the list, whatever the order of the list. -/
theorem foldl_deleteById_eq_filter (l : List Nat) (t : List AlarmRow) :
    l.foldl deleteById t = t.filter (fun r => decide (r.id ∉ l)) := by
  induction l generalizing t with
  | nil => simp [deleteById]
  | cons i l ih =>
    rw [List.foldl_cons, ih]
    simp only [deleteById, List.filter_filter]
    apply List.filter_congr
    intro r _
    by_cases h : r.id = i <;> simp [h]

/-- A member of the eligible-id list is the id of some table row
satisfying the `WHERE` clause. -/
theorem mem_eligibleIds (now days_old : Int) (t : List AlarmRow) (j : Nat) :
    j ∈ eligibleIds now days_old t ↔
      ∃ r ∈ t, eligibleRow now days_old r = true ∧ r.id = j := by
  simp only [eligibleIds, List.mem_map, List.mem_filter]
  constructor
  · rintro ⟨r, ⟨hr, he⟩, hj⟩
    exact ⟨r, hr, he, hj⟩
  · rintro ⟨r, hr, he, hj⟩
    exact ⟨r, ⟨hr, he⟩, hj⟩

/-- With distinct primary keys, membership of a row's id in the cursor's
id list is equivalent to the row itself satisfying the `WHERE` clause. -/
theorem mem_eligibleIds_iff_eligible (now days_old : Int) (t : List AlarmRow)
    (hids : (t.map (fun r => r.id)).Nodup) (r : AlarmRow) (hr : r ∈ t) :
    r.id ∈ eligibleIds now days_old t ↔ eligibleRow now days_old r = true := by
  rw [mem_eligibleIds]
  constructor
  · rintro ⟨r', hr', he', hid⟩
    have : r' = r := List.inj_on_of_nodup_map hids hr' hr hid
    subst this
    exact he'
  · intro he
    exact ⟨r, hr, he, rfl⟩

/-- A completed run of the cursor loop (distinct primary keys) leaves
exactly the rows failing the `WHERE` clause. -/
theorem sp_cleanup_eq_setDelete (now days_old : Int) (t : List AlarmRow)
    (hids : (t.map (fun r => r.id)).Nodup) :
    sp_cleanup_old_alarms now days_old t = sweeperSetDelete now days_old t := by
  rw [sp_cleanup_old_alarms, foldl_deleteById_eq_filter, sweeperSetDelete]
  apply List.filter_congr
  intro r hr
  by_cases he : eligibleRow now days_old r = true
  · have hm : r.id ∈ eligibleIds now days_old t :=
      (mem_eligibleIds_iff_eligible now days_old t hids r hr).mpr he
    simp [he, hm]
  · have hm : r.id ∉ eligibleIds now days_old t := fun h =>
      he ((mem_eligibleIds_iff_eligible now days_old t hids r hr).mp h)
    simp [he, hm]

/-- After a completed run of the cursor loop, no row matching the
`WHERE` clause survives (no primary-key hypothesis needed: the loop
deletes by every id the cursor selected). -/
theorem no_eligible_survives (now days_old : Int) (t : List AlarmRow) :
    (sp_cleanup_old_alarms now days_old t).filter (eligibleRow now days_old) = [] := by
  rw [sp_cleanup_old_alarms, foldl_deleteById_eq_filter, List.filter_eq_nil_iff]
  intro r hr
  rw [List.mem_filter] at hr
  obtain ⟨hrt, hdec⟩ := hr
  rw [decide_eq_true_eq] at hdec
  intro he
  exact hdec ((mem_eligibleIds now days_old t r.id).mpr ⟨r, hrt, he, rfl⟩)

/-- After a completed run, the cursor's `SELECT` over the resulting table
returns no ids. -/
theorem eligibleIds_after_cleanup (now days_old : Int) (t : List AlarmRow) :
    eligibleIds now days_old (sp_cleanup_old_alarms now days_old t) = [] := by
  rw [eligibleIds, no_eligible_survives, List.map_nil]

/-! ## Claim theorems for the cleanup procedure -/

/-- C1: with distinct primary keys, `sp_cleanup_old_alarms(days_old)`
deletes exactly the rows whose status is `triggered` or `failed` and
whose `created_at` is older than `days_old` days before now; every other
row is left unchanged (the survivors are the original subsequence of
non-matching rows), and the scheduled event invokes the procedure with
the default 30. -/
theorem C1_cleanup_deletes_exactly_stale (now days_old : Int) (t : List AlarmRow)
    (hids : (t.map (fun r => r.id)).Nodup) :
    sp_cleanup_old_alarms now days_old t
      = t.filter (fun r => !((r.status == Status.triggered || r.status == Status.failed)
          && decide (r.created_at < now - days_old * secondsPerDay)))
    ∧ ev_cleanup_old_alarms now t = sp_cleanup_old_alarms now 30 t := by
  refine ⟨?_, rfl⟩
  rw [sp_cleanup_eq_setDelete now days_old t hids]
  rfl

/-- C1 witness: a concrete four-row table; the two stale terminal rows
are deleted, the pending row and the young triggered row survive. -/
theorem C1_cleanup_witness :
    (([⟨1, Status.triggered, 0⟩, ⟨2, Status.failed, 0⟩, ⟨3, Status.pending, 0⟩,
        ⟨4, Status.triggered, 3000000⟩] : List AlarmRow).map (fun r => r.id)).Nodup
    ∧ sp_cleanup_old_alarms 3456000 30
        [⟨1, Status.triggered, 0⟩, ⟨2, Status.failed, 0⟩, ⟨3, Status.pending, 0⟩,
          ⟨4, Status.triggered, 3000000⟩]
      = [⟨3, Status.pending, 0⟩, ⟨4, Status.triggered, 3000000⟩] := by
  refine ⟨by decide, ?_⟩
  rw [(C1_cleanup_deletes_exactly_stale 3456000 30 _ (by decide)).1]
  decide

/-- C2: the row-by-row cursor deletion is functionally identical to the
single set-based conditional delete: whatever order the cursor
enumerates the eligible ids in, the final table equals the set-based
delete's result; in particular the procedure itself coincides with it. -/
theorem C2_cursor_equals_set_delete (now days_old : Int) (t : List AlarmRow)
    (order : List Nat) (horder : order.Perm (eligibleIds now days_old t))
    (hids : (t.map (fun r => r.id)).Nodup) :
    order.foldl deleteById t = sweeperSetDelete now days_old t
    ∧ sp_cleanup_old_alarms now days_old t = sweeperSetDelete now days_old t := by
  have hsp := sp_cleanup_eq_setDelete now days_old t hids
  refine ⟨?_, hsp⟩
  rw [foldl_deleteById_eq_filter]
  rw [sp_cleanup_old_alarms, foldl_deleteById_eq_filter] at hsp
  rw [← hsp]
  apply List.filter_congr
  intro r _
  simp only [decide_eq_decide]
  exact not_congr horder.mem_iff

/-- C2 witness: enumerating the two eligible ids in reversed order gives
the same final table as the set-based delete. -/
theorem C2_cursor_witness :
    ([2, 1] : List Nat).Perm (eligibleIds 3456000 30
        [⟨1, Status.triggered, 0⟩, ⟨2, Status.failed, 0⟩, ⟨3, Status.pending, 0⟩])
    ∧ ([2, 1] : List Nat).foldl deleteById
        [⟨1, Status.triggered, 0⟩, ⟨2, Status.failed, 0⟩, ⟨3, Status.pending, 0⟩]
      = sweeperSetDelete 3456000 30
        [⟨1, Status.triggered, 0⟩, ⟨2, Status.failed, 0⟩, ⟨3, Status.pending, 0⟩] :=
  ⟨by decide, (C2_cursor_equals_set_delete 3456000 30 _ [2, 1] (by decide) (by decide)).1⟩

/-- C3: the sweeper is idempotent — running the procedure twice with no
intervening writes equals running it once, the second run's cursor
selects no ids (zero deletions), and a run whose cursor selects no ids
is a no-op. -/
theorem C3_cleanup_idempotent (now days_old : Int) (t : List AlarmRow) :
    sp_cleanup_old_alarms now days_old (sp_cleanup_old_alarms now days_old t)
      = sp_cleanup_old_alarms now days_old t
    ∧ eligibleIds now days_old (sp_cleanup_old_alarms now days_old t) = []
    ∧ (eligibleIds now days_old t = [] → sp_cleanup_old_alarms now days_old t = t) := by
  refine ⟨?_, eligibleIds_after_cleanup now days_old t, ?_⟩
  · conv_lhs => rw [sp_cleanup_old_alarms, eligibleIds_after_cleanup now days_old t]
    rfl
  · intro h
    rw [sp_cleanup_old_alarms, h]
    rfl

/-- C3 witness: on a table with one stale failed row, a second run after
the first selects nothing and changes nothing; on an already-clean table
the run is a no-op. -/
theorem C3_cleanup_witness :
    eligibleIds 3456000 30
        (sp_cleanup_old_alarms 3456000 30 [⟨1, Status.failed, 0⟩, ⟨2, Status.pending, 0⟩]) = []
    ∧ sp_cleanup_old_alarms 3456000 30 [⟨2, Status.pending, 0⟩] = [⟨2, Status.pending, 0⟩] :=
  ⟨(C3_cleanup_idempotent 3456000 30 [⟨1, Status.failed, 0⟩, ⟨2, Status.pending, 0⟩]).2.1,
   (C3_cleanup_idempotent 3456000 30 [⟨2, Status.pending, 0⟩]).2.2 (by decide)⟩

/-! ## Transaction model for C9 -/

/-- Outcome of one invocation of `sp_cleanup_old_alarms`: the procedure's
transaction either reaches `COMMIT`, or the invocation is aborted after
`k` of the loop's row deletions and the transaction is rolled back. -/
inductive RunOutcome where
  | committed
  | abortedAfter (k : Nat)

/-- Observable table state after one invocation under the procedure's
`START TRANSACTION ... COMMIT` bracket: an aborted invocation is rolled
back to the initial table, a committed one installs the cursor loop's
final table. -/
def observableState (now days_old : Int) (t : List AlarmRow) : RunOutcome → List AlarmRow
  | RunOutcome.committed => sp_cleanup_old_alarms now days_old t
  | RunOutcome.abortedAfter _ => t

/-- C9: every observable outcome of one invocation is all-or-nothing —
either the table is unchanged (abort before commit) or it is the
completed run's result, and in the completed run's result no row
matching the cleanup's `WHERE` clause survives (no partial subset of
the eligible rows is left behind). -/
theorem C9_transaction_all_or_nothing (now days_old : Int) (t : List AlarmRow)
    (o : RunOutcome) :
    (observableState now days_old t o = t
      ∨ observableState now days_old t o = sp_cleanup_old_alarms now days_old t)
    ∧ (sp_cleanup_old_alarms now days_old t).filter (eligibleRow now days_old) = [] := by
  refine ⟨?_, no_eligible_survives now days_old t⟩
  cases o with
  | committed => exact Or.inr rfl
  | abortedAfter k => exact Or.inl rfl

/-! ## Frontend form: the submit handler's validation and payload building -/

/-- The `direction` select of a price alarm. -/
inductive Direction where
  | above
  | below
deriving DecidableEq, Repr

/-- The `alarm_type` select of the form. -/
inductive AlarmType where
  | price
  | rsi
  | bollinger
deriving DecidableEq, Repr

/-- The record `formData.params` as the submit handler reads it: each numeric field
is the result of `Number(...)`, with `none` standing for `NaN` (missing,
empty or unparseable input); `direction` is `none` when the field is
absent or empty (JavaScript falsy, picked up by `|| 'above'`). -/
structure FormParams where
  target_price : Option ℚ
  period : Option ℚ
  threshold : Option ℚ
  std_dev : Option ℚ
  direction : Option Direction
deriving DecidableEq, Repr

/-- The `params` object the handler passes to `createAlarm`. -/
inductive Payload where
  | price (target_price : ℚ) (direction : Direction)
  | rsi (period threshold : ℚ)
  | bollinger (period std_dev : ℚ)
deriving DecidableEq, Repr

/-- The validation and payload-building core of the form's `onSubmit`
handler, one branch per `alarm_type`; `Except.error` carries the thrown
`Error`'s message. -/
def onSubmitParams (ty : AlarmType) (p : FormParams) : Except String Payload :=
  match ty with
  | AlarmType.price =>
    let direction := p.direction.getD Direction.above
    match p.target_price with
    | none => Except.error "Invalid price value"
    | some targetPrice =>
      if targetPrice ≤ 0 then Except.error "Invalid price value"
      else Except.ok (Payload.price targetPrice direction)
  | AlarmType.rsi =>
    match p.period with
    | none => Except.error "Invalid RSI period"
    | some period =>
      if period < 1 ∨ period > 100 then Except.error "Invalid RSI period"
      else
        match p.threshold with
        | none => Except.error "Invalid RSI threshold"
        | some threshold =>
          if threshold < 0 ∨ threshold > 100 then Except.error "Invalid RSI threshold"
          else Except.ok (Payload.rsi period threshold)
  | AlarmType.bollinger =>
    match p.period with
    | none => Except.error "Invalid Bollinger period"
    | some period =>
      if period < 1 ∨ period > 100 then Except.error "Invalid Bollinger period"
      else
        match p.std_dev with
        | none => Except.error "Invalid standard deviation"
        | some stdDev =>
          if stdDev ≤ 0 ∨ stdDev > 10 then Except.error "Invalid standard deviation"
          else Except.ok (Payload.bollinger period stdDev)

/-- C5 counterexample: `period = 101` is an integer with `period ≥ 1` and
`std_dev = 2 > 0`, yet the handler raises "Invalid Bollinger period"
instead of accepting the parameters. -/
theorem C5_counterexample :
    (1 ≤ (101 : ℚ) ∧ 0 < (2 : ℚ))
    ∧ onSubmitParams AlarmType.bollinger
        ⟨none, some 101, none, some 2, none⟩
      = Except.error "Invalid Bollinger period" := by
  refine ⟨⟨by norm_num, by norm_num⟩, ?_⟩
  simp only [onSubmitParams]
  rw [if_pos (by norm_num)]

/-- C5 (amended): the bollinger branch accepts exactly the submissions
whose period parses to a number in [1, 100] and whose std_dev parses to
a number in (0, 10]; outside those ranges (or on a `NaN`) it raises a
validation error. -/
theorem C5_bollinger_validation (p : FormParams) :
    (∃ pay, onSubmitParams AlarmType.bollinger p = Except.ok pay)
      ↔ ∃ period stdDev : ℚ, p.period = some period ∧ p.std_dev = some stdDev
          ∧ 1 ≤ period ∧ period ≤ 100 ∧ 0 < stdDev ∧ stdDev ≤ 10 := by
  constructor
  · rintro ⟨pay, hpay⟩
    cases hpp : p.period with
    | none => simp [onSubmitParams, hpp] at hpay
    | some period =>
      cases hps : p.std_dev with
      | none =>
        simp only [onSubmitParams, hpp, hps] at hpay
        split_ifs at hpay
      | some stdDev =>
        simp only [onSubmitParams, hpp, hps] at hpay
        split_ifs at hpay with h1 h2
        push_neg at h1 h2
        exact ⟨period, stdDev, rfl, rfl, h1.1, h1.2, h2.1, h2.2⟩
  · rintro ⟨period, stdDev, hpp, hps, b1, b2, b3, b4⟩
    refine ⟨Payload.bollinger period stdDev, ?_⟩
    simp only [onSubmitParams, hpp, hps]
    rw [if_neg (by push_neg; exact ⟨b1, b2⟩), if_neg (by push_neg; exact ⟨b3, b4⟩)]

/-- C5 witness for the amended claim: `period = 20`, `std_dev = 2` (the
form's placeholders) are accepted. -/
theorem C5_bollinger_witness :
    ∃ pay, onSubmitParams AlarmType.bollinger
        ⟨none, some 20, none, some 2, none⟩ = Except.ok pay :=
  (C5_bollinger_validation ⟨none, some 20, none, some 2, none⟩).mpr
    ⟨20, 2, rfl, rfl, by norm_num, by norm_num, by norm_num, by norm_num⟩

/-- C6: the price branch accepts a submission exactly when
`target_price` parses to a number greater than 0; the payload always
carries both `target_price` and `direction`, and the direction defaults
to `above` when the form field is absent (JavaScript `|| 'above'`). -/
theorem C6_price_submit (p : FormParams) (v : ℚ) (d : Direction) :
    onSubmitParams AlarmType.price p = Except.ok (Payload.price v d)
      ↔ p.target_price = some v ∧ 0 < v ∧ d = p.direction.getD Direction.above := by
  cases htp : p.target_price with
  | none => simp [onSubmitParams, htp]
  | some tp =>
    simp only [onSubmitParams, htp, Option.some.injEq]
    split_ifs with h
    · constructor
      · intro hc; exact absurd hc (by simp)
      · rintro ⟨rfl, hv0, _⟩; exact absurd hv0 (not_lt.mpr h)
    · simp only [Except.ok.injEq, Payload.price.injEq]
      constructor
      · rintro ⟨rfl, rfl⟩; exact ⟨rfl, not_le.mp h, rfl⟩
      · rintro ⟨rfl, _, rfl⟩; exact ⟨rfl, rfl⟩

/-- C6 witness: with `target_price = 50000` and no direction field, the
payload carries `target_price = 50000` and the default `above`. -/
theorem C6_price_witness :
    onSubmitParams AlarmType.price ⟨some 50000, none, none, none, none⟩
      = Except.ok (Payload.price 50000 Direction.above) :=
  (C6_price_submit ⟨some 50000, none, none, none, none⟩ 50000 Direction.above).mpr
    ⟨rfl, by norm_num, rfl⟩

/-- C7: the rsi branch accepts a submission exactly when `period` parses
to a number in [1, 100] and `threshold` parses to a number in [0, 100];
otherwise it raises a validation error and no payload is built. -/
theorem C7_rsi_validation (p : FormParams) :
    (∃ pay, onSubmitParams AlarmType.rsi p = Except.ok pay)
      ↔ ∃ period threshold : ℚ, p.period = some period ∧ p.threshold = some threshold
          ∧ 1 ≤ period ∧ period ≤ 100 ∧ 0 ≤ threshold ∧ threshold ≤ 100 := by
  constructor
  · rintro ⟨pay, hpay⟩
    cases hpp : p.period with
    | none => simp [onSubmitParams, hpp] at hpay
    | some period =>
      cases hpt : p.threshold with
      | none =>
        simp only [onSubmitParams, hpp, hpt] at hpay
        split_ifs at hpay
      | some threshold =>
        simp only [onSubmitParams, hpp, hpt] at hpay
        split_ifs at hpay with h1 h2
        push_neg at h1 h2
        exact ⟨period, threshold, rfl, rfl, h1.1, h1.2, h2.1, h2.2⟩
  · rintro ⟨period, threshold, hpp, hpt, b1, b2, b3, b4⟩
    refine ⟨Payload.rsi period threshold, ?_⟩
    simp only [onSubmitParams, hpp, hpt]
    rw [if_neg (by push_neg; exact ⟨b1, b2⟩), if_neg (by push_neg; exact ⟨b3, b4⟩)]

/-- C7 witness: the placeholders `period = 14`, `threshold = 30` are
accepted, while `period = 0` is rejected. -/
theorem C7_rsi_witness :
    (∃ pay, onSubmitParams AlarmType.rsi
        ⟨none, some 14, some 30, none, none⟩ = Except.ok pay)
    ∧ ¬∃ pay, onSubmitParams AlarmType.rsi
        ⟨none, some 0, some 30, none, none⟩ = Except.ok pay := by
  constructor
  · exact (C7_rsi_validation ⟨none, some 14, some 30, none, none⟩).mpr
      ⟨14, 30, rfl, rfl, by norm_num, by norm_num, by norm_num, by norm_num⟩
  · intro h
    obtain ⟨period, threshold, hp, _, b1, _, _, _⟩ :=
      (C7_rsi_validation ⟨none, some 0, some 30, none, none⟩).mp h
    rw [Option.some.injEq] at hp
    rw [← hp] at b1
    exact absurd b1 (by norm_num)

/-! ## Frontend form: asset-symbol validation -/

/-- The `asset_class` select of the form. -/
inductive AssetClass where
  | crypto
  | forex
  | stock
deriving DecidableEq, Repr

/-- The character class of the form's `asset_symbol` pattern
(anchored, one or more of `A-Z`, `a-z`, `0-9`, dash, slash). -/
def symbolCharOk (c : Char) : Bool :=
  ('A' ≤ c && c ≤ 'Z') || ('a' ≤ c && c ≤ 'z') || ('0' ≤ c && c ≤ '9')
    || c == '-' || c == '/'

/-- The form's registered `asset_symbol` validator: its anchored
one-or-more pattern over `symbolCharOk`'s class matches exactly the
non-empty strings all of whose characters lie in the class. The
validator in the source never inspects the selected asset class; the
`_ac` argument records that the same check runs for every class. -/
def assetSymbolAccepted (_ac : AssetClass) (s : String) : Bool :=
  !s.isEmpty && s.data.all symbolCharOk

/-- A character matches the pattern's class exactly when it is an ASCII
letter, an ASCII digit, `-` or `/`. -/
theorem symbolCharOk_iff (c : Char) :
    symbolCharOk c = true ↔ (c.isAlpha ∨ c.isDigit ∨ c = '-' ∨ c = '/') := by
  simp [symbolCharOk, Char.isAlpha, Char.isUpper, Char.isLower, Char.isDigit,
    Char.le_def, ge_iff_le, or_assoc]

/-- C8: for every asset class, the form accepts `asset_symbol` exactly
when it is non-empty and consists solely of ASCII letters, digits, `-`
and `/`; and the check is the same whatever asset class is selected. -/
theorem C8_symbol_validation (ac : AssetClass) (s : String) :
    (assetSymbolAccepted ac s = true
      ↔ s ≠ "" ∧ ∀ c ∈ s.data, c.isAlpha ∨ c.isDigit ∨ c = '-' ∨ c = '/')
    ∧ ∀ ac' : AssetClass, assetSymbolAccepted ac s = assetSymbolAccepted ac' s := by
  refine ⟨?_, fun _ => rfl⟩
  rw [assetSymbolAccepted, Bool.and_eq_true, List.all_eq_true]
  apply and_congr
  · rw [Bool.not_eq_true', Bool.eq_false_iff]
    exact not_congr (String.isEmpty_iff s)
  · exact forall₂_congr fun c _ => symbolCharOk_iff c

/-- C8 witness: `BTC-USD` and `EUR/USD` are accepted for every class,
the empty string and `BTC USD` are rejected. -/
theorem C8_symbol_witness :
    (assetSymbolAccepted AssetClass.crypto "BTC-USD" = true)
    ∧ (assetSymbolAccepted AssetClass.forex "EUR/USD"
        = assetSymbolAccepted AssetClass.stock "EUR/USD")
    ∧ ¬(assetSymbolAccepted AssetClass.stock "" = true) := by
  refine ⟨?_, (C8_symbol_validation AssetClass.forex "EUR/USD").2 AssetClass.stock, ?_⟩
  · exact (C8_symbol_validation AssetClass.crypto "BTC-USD").1.mpr ⟨by decide, by decide⟩
  · intro h
    exact absurd ((C8_symbol_validation AssetClass.stock "").1.mp h).1 (by simp)

/-! ## Frontend API library: asset-list caching -/

/-- One entry of the module-level `assetCache` record: the asset list and
the `Date.now()` timestamp (milliseconds) at which it was stored. -/
structure CacheEntry where
  data : List String
  timestamp : Int
deriving DecidableEq, Repr

/-- The constant `CACHE_DURATION_MS = 5 * 60 * 1000` (five minutes). -/
def CACHE_DURATION_MS : Int := 5 * 60 * 1000

/-- Outcome of the `getAssets` network call, made explicit: `ok` with the
fetched asset list, or `err` when the request throws. -/
inductive FetchOutcome where
  | ok (assets : List String)
  | err
deriving DecidableEq, Repr

/-- Result of one `getCachedAssets` call: the returned value (a thrown
error is `Except.error ()`), the cache afterwards, and whether a network
request was issued. -/
structure CachedAssetsResult where
  result : Except Unit (List String)
  cache : AssetClass → Option CacheEntry
  fetched : Bool

/-- The function `getCachedAssets(assetClass)`: return the cached list when the entry
is younger than `CACHE_DURATION_MS`; otherwise fetch, store the fresh
list at `now` and return it; when the fetch throws, fall back to any
existing entry and re-throw only when there is none. -/
def getCachedAssets (cache : AssetClass → Option CacheEntry) (now : Int)
    (fetch : FetchOutcome) (assetClass : AssetClass) : CachedAssetsResult :=
  match cache assetClass with
  | some cached =>
    if now - cached.timestamp < CACHE_DURATION_MS then
      ⟨Except.ok cached.data, cache, false⟩
    else
      match fetch with
      | FetchOutcome.ok assets =>
        ⟨Except.ok assets,
          fun a => if a = assetClass then some ⟨assets, now⟩ else cache a, true⟩
      | FetchOutcome.err => ⟨Except.ok cached.data, cache, true⟩
  | none =>
    match fetch with
    | FetchOutcome.ok assets =>
      ⟨Except.ok assets,
        fun a => if a = assetClass then some ⟨assets, now⟩ else cache a, true⟩
    | FetchOutcome.err => ⟨Except.error (), cache, true⟩

/-- C10: a cache entry younger than five minutes is returned with no
network request and an unchanged cache; on a failed fetch any existing
entry (however old) is returned; the error propagates exactly when no
entry for the class was ever stored. -/
theorem C10_cache_behaviour (cache : AssetClass → Option CacheEntry) (now : Int)
    (fetch : FetchOutcome) (assetClass : AssetClass) :
    (∀ c, cache assetClass = some c → now - c.timestamp < CACHE_DURATION_MS →
      getCachedAssets cache now fetch assetClass
        = ⟨Except.ok c.data, cache, false⟩)
    ∧ (∀ c, cache assetClass = some c → fetch = FetchOutcome.err →
      (getCachedAssets cache now fetch assetClass).result = Except.ok c.data)
    ∧ (cache assetClass = none → fetch = FetchOutcome.err →
      (getCachedAssets cache now fetch assetClass).result = Except.error ())
    ∧ ((getCachedAssets cache now fetch assetClass).result = Except.error () →
      cache assetClass = none ∧ fetch = FetchOutcome.err) := by
  refine ⟨?_, ?_, ?_, ?_⟩
  · intro c hc hfresh
    simp only [getCachedAssets.eq_def, hc]
    rw [if_pos hfresh]
  · intro c hc hfe
    simp only [getCachedAssets.eq_def, hc, hfe]
    split_ifs <;> rfl
  · intro hc hfe
    simp only [getCachedAssets.eq_def, hc, hfe]
  · intro herr
    cases hc : cache assetClass with
    | some c =>
      exfalso
      simp only [getCachedAssets.eq_def, hc] at herr
      split_ifs at herr
      cases hfe : fetch <;> rw [hfe] at herr <;> exact absurd herr (by simp)
    | none =>
      refine ⟨rfl, ?_⟩
      cases hfe : fetch with
      | ok assets =>
        exfalso
        simp only [getCachedAssets.eq_def, hc, hfe] at herr
        exact absurd herr (by simp)
      | err => rfl

/-- C10 witness: a fresh crypto entry is served from the cache with no
request; a failed fetch with no stored entry propagates the error. -/
theorem C10_cache_witness :
    getCachedAssets
        (fun a => if a = AssetClass.crypto then some ⟨["BTC-USD"], 0⟩ else none)
        1000 FetchOutcome.err AssetClass.crypto
      = ⟨Except.ok ["BTC-USD"],
          (fun a => if a = AssetClass.crypto then some ⟨["BTC-USD"], 0⟩ else none),
          false⟩
    ∧ (getCachedAssets (fun _ => none) 1000 FetchOutcome.err
        AssetClass.forex).result = Except.error () :=
  ⟨(C10_cache_behaviour
      (fun a => if a = AssetClass.crypto then some ⟨["BTC-USD"], 0⟩ else none)
      1000 FetchOutcome.err AssetClass.crypto).1 ⟨["BTC-USD"], 0⟩ rfl (by norm_num [CACHE_DURATION_MS]),
   (C10_cache_behaviour (fun _ => none) 1000 FetchOutcome.err
      AssetClass.forex).2.2.1 rfl rfl⟩

/-! ## Indicator Engine: RSI, modelled from the spec -/

/-- The consecutive price deltas of a series (next minus previous). -/
def deltasOf (l : List ℚ) : List ℚ :=
  List.zipWith (fun prev next => next - prev) l l.tail

/-- Average gain over a window of `period` deltas: losses clipped to 0. -/
def avgGainOf (deltas : List ℚ) (period : Nat) : ℚ :=
  (deltas.map (fun d => max d 0)).sum / period

/-- Average loss over a window of `period` deltas: gains clipped to 0,
losses counted positively. -/
def avgLossOf (deltas : List ℚ) (period : Nat) : ℚ :=
  (deltas.map (fun d => max (-d) 0)).sum / period

/-- Modelled from the spec: the backend Indicator Engine is missing from
the repository snapshot (only the frontend and the SQL migration are
present), so `RSI` follows spec §4.1 word for word — Wilder's index over
the last `period` deltas, `100 - 100 / (1 + RS)` with
`RS = avgGain / avgLoss`; `none` is `InsufficientData`, returned when
the series has fewer than `period + 1` samples; when the average loss is
exactly zero the RSI is defined as 100 rather than dividing by zero. -/
def rsi (series : List ℚ) (period : Nat) : Option ℚ :=
  if series.length < period + 1 then none
  else if avgLossOf (deltasOf (series.drop (series.length - (period + 1)))) period = 0 then
    some 100
  else
    some (100 - 100 /
      (1 + avgGainOf (deltasOf (series.drop (series.length - (period + 1)))) period
        / avgLossOf (deltasOf (series.drop (series.length - (period + 1)))) period))

/-- Every clipped-gain average and clipped-loss average is nonnegative. -/
theorem avgGainOf_nonneg (deltas : List ℚ) (period : Nat) : 0 ≤ avgGainOf deltas period := by
  apply div_nonneg
  · apply List.sum_nonneg
    intro x hx
    obtain ⟨d, _, rfl⟩ := List.mem_map.mp hx
    exact le_max_right d 0
  · exact Nat.cast_nonneg period

/-- The clipped-loss average is nonnegative as well. -/
theorem avgLossOf_nonneg (deltas : List ℚ) (period : Nat) : 0 ≤ avgLossOf deltas period := by
  apply div_nonneg
  · apply List.sum_nonneg
    intro x hx
    obtain ⟨d, _, rfl⟩ := List.mem_map.mp hx
    exact le_max_right (-d) 0
  · exact Nat.cast_nonneg period

/-- On a chainwise nondecreasing series every consecutive delta is a
gain (nonnegative). -/
theorem deltasOf_nonneg_of_chain (l : List ℚ) (h : l.Chain' (· ≤ ·)) :
    ∀ d ∈ deltasOf l, 0 ≤ d := by
  induction l with
  | nil => intro d hd; simp [deltasOf] at hd
  | cons a l ih =>
    cases l with
    | nil => intro d hd; simp [deltasOf] at hd
    | cons b t =>
      intro d hd
      rw [List.chain'_cons] at h
      rw [deltasOf, List.tail_cons, List.zipWith_cons_cons] at hd
      rcases List.mem_cons.mp hd with h1 | h2
      · rw [h1]; exact sub_nonneg.mpr h.1
      · exact ih h.2 d h2

/-- On a nondecreasing window the average loss is exactly zero. -/
theorem avgLossOf_eq_zero_of_chain (l : List ℚ) (h : l.Chain' (· ≤ ·)) (period : Nat) :
    avgLossOf (deltasOf l) period = 0 := by
  rw [avgLossOf]
  rw [List.sum_eq_zero, zero_div]
  intro x hx
  obtain ⟨d, hd, rfl⟩ := List.mem_map.mp hx
  exact max_eq_right (neg_nonpos.mpr (deltasOf_nonneg_of_chain l h d hd))

/-- C4: with at least `period + 1` samples the RSI is a number in
[0, 100]; on a series of all-gain consecutive deltas (no losses, so the
average loss is exactly zero) it is exactly 100, with no
division-by-zero fault; with fewer samples it is `InsufficientData`. -/
theorem C4_rsi_properties (series : List ℚ) (period : Nat) :
    (period + 1 ≤ series.length →
      ∃ v, rsi series period = some v ∧ 0 ≤ v ∧ v ≤ 100)
    ∧ (period + 1 ≤ series.length → series.Chain' (· ≤ ·) →
      rsi series period = some 100)
    ∧ (series.length < period + 1 → rsi series period = none) := by
  refine ⟨?_, ?_, ?_⟩
  · intro hlen
    rw [rsi, if_neg (not_lt.mpr hlen)]
    set deltas := deltasOf (series.drop (series.length - (period + 1))) with hdel
    by_cases hzero : avgLossOf deltas period = 0
    · rw [if_pos hzero]
      exact ⟨100, rfl, by norm_num, by norm_num⟩
    · rw [if_neg hzero]
      have hloss : 0 < avgLossOf deltas period :=
        lt_of_le_of_ne (avgLossOf_nonneg deltas period) (Ne.symm hzero)
      have hrs : 0 ≤ avgGainOf deltas period / avgLossOf deltas period :=
        div_nonneg (avgGainOf_nonneg deltas period) (le_of_lt hloss)
      refine ⟨_, rfl, ?_, ?_⟩
      · have : 100 / (1 + avgGainOf deltas period / avgLossOf deltas period) ≤ 100 :=
          div_le_self (by norm_num) (by linarith)
        linarith
      · have : 0 ≤ 100 / (1 + avgGainOf deltas period / avgLossOf deltas period) :=
          div_nonneg (by norm_num) (by linarith)
        linarith
  · intro hlen hmono
    rw [rsi, if_neg (not_lt.mpr hlen)]
    rw [if_pos (avgLossOf_eq_zero_of_chain _
      (hmono.sublist (List.drop_sublist _ _)) period)]
  · intro hlen
    rw [rsi, if_pos hlen]

/-- C4 witness: a strictly rising three-sample series with `period = 2`
gives exactly 100; two samples are insufficient for `period = 2`. -/
theorem C4_rsi_witness :
    rsi [1, 2, 3] 2 = some 100 ∧ rsi [1, 2] 2 = none :=
  ⟨(C4_rsi_properties [1, 2, 3] 2).2.1 (by norm_num) (by
      rw [List.chain'_cons, List.chain'_cons]
      refine ⟨by norm_num, by norm_num, List.chain'_singleton 3⟩),
   (C4_rsi_properties [1, 2] 2).2.2 (by norm_num)⟩
